import Mathlib

/-!
Shallow embedding of the cdk-experimental popover-edit table directives
(src/cdk-experimental/popover-edit/popover-edit-module.ts): the colspan
cell-range computation, the delegated table event streams, and the overlay /
embedded-view lifecycle state machines, together with theorems about them.
-/

/-- A DOM element, abstracted to just what the directives' selectors can
observe: whether it matches CELL_SELECTOR, ROW_SELECTOR or
EDIT_PANE_SELECTOR, plus an identity. -/
inductive DomNode where
  | cell (id : Nat)
  | row (id : Nat)
  | pane (id : Nat)
  | other (id : Nat)
deriving DecidableEq

/-- Does the node match CELL_SELECTOR? -/
def matchesCell : DomNode → Bool
  | .cell _ => true
  | _ => false

/-- Does the node match ROW_SELECTOR? -/
def matchesRow : DomNode → Bool
  | .row _ => true
  | _ => false

/-- Does the node match EDIT_PANE_SELECTOR? -/
def matchesPane : DomNode → Bool
  | .pane _ => true
  | _ => false

/-- Modelled from the spec: the `closest` polyfill (its source file is not in
the fragment). An element is represented by its ancestor chain, the element
itself first; `closest` returns the nearest self-or-ancestor matching the
selector, or null. -/
def closest (chain : List DomNode) (sel : DomNode → Bool) : Option DomNode :=
  chain.find? sel

/-- Colspan input of CdkPopoverEdit: number of adjacent columns before and
after the origin cell the popup should span. An absent field is `none`
(undefined in TS). -/
structure CdkPopoverEditColspan where
  before : Option Nat := none
  after : Option Nat := none
deriving DecidableEq

/-- JS truthiness of an optional number: undefined and 0 are falsy. -/
def jsTruthy : Option Nat → Bool
  | none => false
  | some n => n != 0

/-- JS `x || 0` on an optional number. -/
def jsOrZero : Option Nat → Nat
  | none => 0
  | some n => n

/-- JS Array.prototype.indexOf: index of the first occurrence, or -1. -/
def jsIndexOf [DecidableEq α] : List α → α → Int
  | [], _ => -1
  | a :: rest, x =>
    if a = x then 0
    else
      let r := jsIndexOf rest x
      if r = -1 then -1 else r + 1

/-- JS Array.prototype.slice with explicit start and end: negative indices
count from the end, and both are clamped to [0, length]. -/
def jsSlice (l : List α) (start stop : Int) : List α :=
  let len : Int := l.length
  let k := if start < 0 then max (len + start) 0 else min start len
  let f := if stop < 0 then max (len + stop) 0 else min stop len
  (l.drop k.toNat).take (f - k).toNat

/-- CdkPopoverEdit._getOverlayCells. `cell` is
closest(this.elementRef.nativeElement, CELL_SELECTOR) and `rowCells` is
Array.from(row.querySelectorAll(CELL_SELECTOR)) for the enclosing row, so the
function is parameterised on both. When neither colspan field is truthy the
origin cell alone is returned; otherwise the row's cells are sliced around
the origin cell's index. -/
def CdkPopoverEdit.getOverlayCells [DecidableEq α]
    (colspan : CdkPopoverEditColspan) (cell : α) (rowCells : List α) : List α :=
  if !jsTruthy colspan.before && !jsTruthy colspan.after then
    [cell]
  else
    let ownIndex := jsIndexOf rowCells cell
    jsSlice rowCells (ownIndex - (jsOrZero colspan.before : Int))
      (ownIndex + (jsOrZero colspan.after : Int) + 1)





/-- A DOM Event as CdkEditOpen.openEdit observes it: only stopPropagation is
relevant. -/
structure ClickEvent where
  propagationStopped : Bool := false
deriving DecidableEq

/-- Result of one openEdit call: the dispatcher's editing stream (as the list
of values emitted so far) and the event after the call. -/
structure EditOpenResult where
  editingEmitted : List (Option DomNode)
  event : ClickEvent
deriving DecidableEq

/-- CdkEditOpen.openEdit: emits closest(nativeElement, CELL_SELECTOR) on the
EditEventDispatcher's editing stream, then calls stopPropagation on the
event. `hostChain` is the host element's ancestor chain; `editingLog` is the
editing stream before the call. -/
def CdkEditOpen.openEdit (hostChain : List DomNode)
    (editingLog : List (Option DomNode)) (evt : ClickEvent) : EditOpenResult :=
  { editingEmitted := editingLog ++ [closest hostChain matchesCell],
    event := { evt with propagationStopped := true } }

/-- CdkEditOpenButton extends CdkEditOpen without overriding openEdit. -/
def CdkEditOpenButton.openEdit : List DomNode → List (Option DomNode) →
    ClickEvent → EditOpenResult :=
  CdkEditOpen.openEdit

/-- A keyup event as seen by CdkEditable._listenForTableEvents: its key and
its target's ancestor chain. -/
structure KeyEvent where
  key : String
  target : List DomNode
deriving DecidableEq

/-- The keyup pipeline of CdkEditable._listenForTableEvents: filter for
key === Enter, then map each event to closest(target, CELL_SELECTOR); the
resulting list is what the pipeline feeds to the dispatcher's editing
stream. -/
def CdkEditable.keyupEditingEmissions (events : List KeyEvent) : List (Option DomNode) :=
  (events.filter (fun e => e.key == "Enter")).map (fun e => closest e.target matchesCell)

/-- The delay between the mouse entering a row and the mouse stopping its
movement before showing on-hover content. -/
def DEFAULT_MOUSE_MOVE_DELAY_MS : Nat := 30

/-- A time-stamped mouse event on the table: its arrival time in ms and its
target's ancestor chain. -/
structure TimedEvent where
  time : Nat
  target : List DomNode
deriving DecidableEq

/-- rxjs debounceTime over a finite stream of time-stamped events (times
strictly increasing): an event is re-emitted d ms later unless a following
event arrives within the d ms window, which cancels it. -/
def debounceTime (d : Nat) : List TimedEvent → List TimedEvent
  | [] => []
  | [e] => [{ e with time := e.time + d }]
  | e :: e2 :: rest =>
    if e.time + d < e2.time then
      { e with time := e.time + d } :: debounceTime d (e2 :: rest)
    else
      debounceTime d (e2 :: rest)

/-- The mousemove pipeline of CdkEditable._listenForTableEvents: debounce by
DEFAULT_MOUSE_MOVE_DELAY_MS, then map to closest(target, ROW_SELECTOR); the
result is the time-stamped list of values fed to the dispatcher's mouseMove
stream. -/
def CdkEditable.mouseMoveEmissions (events : List TimedEvent) : List (Nat × Option DomNode) :=
  (debounceTime DEFAULT_MOUSE_MOVE_DELAY_MS events).map
    (fun e => (e.time, closest e.target matchesRow))

/-- The mouseover pipeline: each event immediately maps to
closest(target, ROW_SELECTOR) on the dispatcher's hovering stream. -/
def CdkEditable.mouseoverEmissions (events : List TimedEvent) : List (Nat × Option DomNode) :=
  events.map (fun e => (e.time, closest e.target matchesRow))

/-- The mouseleave pipeline: each event immediately maps to null on the
dispatcher's hovering stream. -/
def CdkEditable.mouseleaveEmissions (events : List TimedEvent) : List (Nat × Option DomNode) :=
  events.map (fun e => (e.time, (none : Option DomNode)))



/-- The edit lens template reference (TemplateRef), by identity. -/
structure Template where
  id : Nat
deriving DecidableEq

/-- One value delivered by editEventDispatcher.editingCell to a
CdkPopoverEdit instance: the open signal, the value of the template input at
that moment, and the ancestor chain of document.activeElement at that
moment. -/
structure EditEvent where
  isOpen : Bool
  template : Option Template
  activeChain : List DomNode
deriving DecidableEq

/-- Observable state of one CdkPopoverEdit instance. `overlayRef` holds the
creation ordinal of the overlay once created; `focused` is the ancestor
chain of document.activeElement. The count fields are ghost counters of the
overlay operations performed: overlay.create, overlayRef.attach,
overlayRef.detach and overlayRef.dispose calls. -/
structure PopoverEditState where
  overlayRef : Option Nat := none
  attached : Bool := false
  focused : List DomNode := []
  createCount : Nat := 0
  attachCount : Nat := 0
  detachCount : Nat := 0
  disposeCount : Nat := 0
deriving DecidableEq

/-- The state of a CdkPopoverEdit instance before any edit event. -/
def initPopoverEditState : PopoverEditState := {}

/-- CdkPopoverEdit._maybeReturnFocusToCell: focuses the cell element exactly
when closest(document.activeElement, EDIT_PANE_SELECTOR) is this overlay's
overlayElement. Returns the resulting activeElement chain: `cellChain` (the
host cell element's chain) when focus is returned, the unchanged `active`
otherwise. -/
def CdkPopoverEdit.maybeReturnFocusToCell (cellChain : List DomNode)
    (paneEl : DomNode) (active : List DomNode) : List DomNode :=
  if closest active matchesPane = some paneEl then cellChain else active

/-- The subscriber body of CdkPopoverEdit._startListeningToEditEvents: on an
open signal with a non-null template, create the overlay if there is none
and attach (show) it; otherwise, if an overlay reference exists, maybe
return focus to the cell and detach. `cellChain` is the ancestor chain of
this.elementRef.nativeElement. A fresh overlay is identified by the current
createCount, and its overlayElement is the pane node with that ordinal. -/
def CdkPopoverEdit.editStep (cellChain : List DomNode)
    (s : PopoverEditState) (e : EditEvent) : PopoverEditState :=
  if e.isOpen && e.template.isSome then
    match s.overlayRef with
    | none =>
      { s with overlayRef := some s.createCount, createCount := s.createCount + 1,
               attached := true, attachCount := s.attachCount + 1,
               focused := e.activeChain }
    | some _ =>
      { s with attached := true, attachCount := s.attachCount + 1,
               focused := e.activeChain }
  else
    match s.overlayRef with
    | some oid =>
      { s with attached := false, detachCount := s.detachCount + 1,
               focused := CdkPopoverEdit.maybeReturnFocusToCell cellChain
                 (DomNode.pane oid) e.activeChain }
    | none => { s with focused := e.activeChain }

/-- CdkPopoverEdit.ngOnDestroy: disposes the overlay when an overlay
reference exists. -/
def CdkPopoverEdit.ngOnDestroy (s : PopoverEditState) : PopoverEditState :=
  match s.overlayRef with
  | some _ => { s with disposeCount := s.disposeCount + 1 }
  | none => s

/-- Run a CdkPopoverEdit instance over a sequence of edit events from its
initial state. -/
def CdkPopoverEdit.runEditEvents (cellChain : List DomNode)
    (events : List EditEvent) : PopoverEditState :=
  events.foldl (CdkPopoverEdit.editStep cellChain) initPopoverEditState

/-- Observable state of one CdkRowHoverContent instance: the creation
ordinal of the embedded view once created, whether it is currently inserted,
and ghost counters of createEmbeddedView, insert, detach and view-destroy
calls. -/
structure RowHoverContentState where
  viewRef : Option Nat := none
  inserted : Bool := false
  createViewCount : Nat := 0
  insertCount : Nat := 0
  detachCount : Nat := 0
  destroyCount : Nat := 0
deriving DecidableEq

/-- The state of a CdkRowHoverContent instance before any hover event. -/
def initRowHoverContentState : RowHoverContentState := {}

/-- The subscriber body of CdkRowHoverContent._listenForHoverEvents: on
hover-on, create the embedded view if there is none, otherwise re-insert the
retained view; on hover-off, detach the view if one exists. -/
def CdkRowHoverContent.hoverStep (s : RowHoverContentState)
    (isHovering : Bool) : RowHoverContentState :=
  if isHovering then
    match s.viewRef with
    | none =>
      { s with viewRef := some s.createViewCount,
               createViewCount := s.createViewCount + 1, inserted := true }
    | some _ =>
      { s with insertCount := s.insertCount + 1, inserted := true }
  else
    match s.viewRef with
    | some _ =>
      { s with detachCount := s.detachCount + 1, inserted := false }
    | none => s

/-- CdkRowHoverContent.ngOnDestroy: destroys the embedded view when one
exists. -/
def CdkRowHoverContent.ngOnDestroy (s : RowHoverContentState) : RowHoverContentState :=
  match s.viewRef with
  | some _ => { s with destroyCount := s.destroyCount + 1 }
  | none => s

/-- Run a CdkRowHoverContent instance over a sequence of hover signals from
its initial state. -/
def CdkRowHoverContent.runHoverEvents (events : List Bool) : RowHoverContentState :=
  events.foldl CdkRowHoverContent.hoverStep initRowHoverContentState

/-- Does an edit event take the open branch of the subscriber: open signal
with a non-null template. -/
def opensWithTemplate (e : EditEvent) : Bool :=
  e.isOpen && e.template.isSome

theorem jsIndexOf_append_cons [DecidableEq α] (pre post : List α) (x : α)
    (hx : x ∉ pre) :
    jsIndexOf (pre ++ x :: post) x = (pre.length : Int) := by
  induction pre with
  | nil => simp [jsIndexOf]
  | cons a rest ih =>
    have hax : ¬ a = x := by
      intro h
      exact hx (by simp [h])
    have hrest : x ∉ rest := fun h => hx (List.mem_cons_of_mem _ h)
    simp only [List.cons_append, jsIndexOf, hax, if_false, List.append_eq]
    rw [ih hrest]
    have hne : ((rest.length : Int)) ≠ -1 := by omega
    simp [hne]

theorem jsSlice_of_bounds (l : List α) (s t : Int) (hs : 0 ≤ s) (hst : s ≤ t)
    (ht : t ≤ (l.length : Int)) :
    jsSlice l s t = (l.drop s.toNat).take (t - s).toNat := by
  have h1 : ¬ s < 0 := by omega
  have h2 : ¬ t < 0 := by omega
  simp only [jsSlice, if_neg h1, if_neg h2]
  rw [min_eq_left (le_trans hst ht), min_eq_left ht]

theorem drop_take_append_middle (pre post : List α) (x : α) (b a : Nat)
    (hb : b ≤ pre.length) :
    ((pre ++ x :: post).drop (pre.length - b)).take (b + a + 1)
      = pre.drop (pre.length - b) ++ x :: post.take a := by
  have hl : (pre.drop (pre.length - b)).length = b := by
    rw [List.length_drop]
    omega
  rw [List.drop_append_eq_append_drop]
  have h0 : pre.length - b - pre.length = 0 := by omega
  rw [h0, List.drop_zero]
  rw [List.take_append_eq_append_take, hl]
  have h1 : b + a + 1 - b = a + 1 := by omega
  rw [h1, List.take_succ_cons]
  rw [List.take_of_length_le (by rw [hl]; omega)]

/-- C1: with a colspan input putting b cells before and a cells after, and
the origin cell sitting in its row with at least b cells before it and a
cells after it, _getOverlayCells returns exactly the b cells immediately
before the origin cell, the origin cell, and the a cells immediately after
it, contiguously and in row order; with no colspan set it returns the
singleton list of the origin cell. -/
theorem CdkPopoverEdit.getOverlayCells_colspan_range [DecidableEq α]
    (b a : Nat) (pre post : List α) (x : α)
    (hx : x ∉ pre) (hb : b ≤ pre.length) (ha : a ≤ post.length) :
    (CdkPopoverEdit.getOverlayCells { before := some b, after := some a } x (pre ++ x :: post)
        = pre.drop (pre.length - b) ++ x :: post.take a)
    ∧ (pre.drop (pre.length - b)).length = b
    ∧ ∀ (c : α) (row : List α),
        CdkPopoverEdit.getOverlayCells {} c row = [c] := by
  refine ⟨?_, by rw [List.length_drop]; omega,
    fun c row => by simp [CdkPopoverEdit.getOverlayCells, jsTruthy]⟩
  by_cases hba : b = 0 ∧ a = 0
  · obtain ⟨hb0, ha0⟩ := hba
    subst hb0
    subst ha0
    simp [CdkPopoverEdit.getOverlayCells, jsTruthy, List.drop_length]
  · have hcond : ¬ ((!jsTruthy (some b) && !jsTruthy (some a)) = true) := by
      simpa [jsTruthy] using hba
    simp only [CdkPopoverEdit.getOverlayCells, if_neg hcond, jsOrZero]
    rw [jsIndexOf_append_cons pre post x hx]
    rw [jsSlice_of_bounds _ _ _ (by omega) (by omega)
      (by simp [List.length_append]; omega)]
    have hstart : ((pre.length : Int) - (b : Int)).toNat = pre.length - b := by omega
    have hstop : ((pre.length : Int) + (a : Int) + 1 - ((pre.length : Int) - (b : Int))).toNat
        = b + a + 1 := by omega
    rw [hstart, hstop]
    exact drop_take_append_middle pre post x b a hb

/-- Witness for C1 at a concrete row: row cells [0,1,2,3,4], origin cell 2,
colspan before 1 and after 1. -/
theorem CdkPopoverEdit.getOverlayCells_colspan_range_witness :
    (2 : Nat) ∉ [0, 1] ∧ 1 ≤ [0, 1].length ∧ 1 ≤ [3, 4].length ∧
    CdkPopoverEdit.getOverlayCells { before := some 1, after := some 1 } 2 ([0, 1] ++ 2 :: [3, 4])
      = [0, 1].drop ([0, 1].length - 1) ++ 2 :: [3, 4].take 1 :=
  ⟨by decide, by decide, by decide,
    (CdkPopoverEdit.getOverlayCells_colspan_range 1 1 [0, 1] [3, 4] 2
      (by decide) (by decide) (by decide)).1⟩

/-- C8: the colspan value with before and after both 0 behaves exactly like
the empty colspan record: both make _getOverlayCells return the singleton
origin cell, because 0 is falsy in the guard. -/
theorem CdkPopoverEdit.getOverlayCells_zero_eq_unset [DecidableEq α]
    (cell : α) (rowCells : List α) :
    CdkPopoverEdit.getOverlayCells { before := some 0, after := some 0 } cell rowCells
        = CdkPopoverEdit.getOverlayCells {} cell rowCells
    ∧ CdkPopoverEdit.getOverlayCells { before := some 0, after := some 0 } cell rowCells
        = [cell] := by
  constructor <;> simp [CdkPopoverEdit.getOverlayCells, jsTruthy]

/-- C2: every openEdit call emits the closest enclosing cell of the host
element on the dispatcher's editing stream and calls stopPropagation on the
event; CdkEditOpenButton inherits the same behavior. -/
theorem CdkEditOpen.openEdit_emits_cell_and_stops_propagation
    (hostChain : List DomNode) (editingLog : List (Option DomNode))
    (evt : ClickEvent) (c : DomNode)
    (hc : closest hostChain matchesCell = some c) :
    (CdkEditOpen.openEdit hostChain editingLog evt).editingEmitted
        = editingLog ++ [some c]
    ∧ (CdkEditOpen.openEdit hostChain editingLog evt).event.propagationStopped = true
    ∧ CdkEditOpenButton.openEdit hostChain editingLog evt
        = CdkEditOpen.openEdit hostChain editingLog evt := by
  refine ⟨?_, rfl, rfl⟩
  simp [CdkEditOpen.openEdit, hc]

/-- Witness for C2: a host inside cell 5. -/
theorem CdkEditOpen.openEdit_emits_cell_witness :
    closest [DomNode.other 0, DomNode.cell 5] matchesCell = some (DomNode.cell 5)
    ∧ (CdkEditOpen.openEdit [DomNode.other 0, DomNode.cell 5] [] {}).editingEmitted
        = [] ++ [some (DomNode.cell 5)] :=
  ⟨by decide,
    (CdkEditOpen.openEdit_emits_cell_and_stops_propagation
      [DomNode.other 0, DomNode.cell 5] [] {} (DomNode.cell 5) (by decide)).1⟩

/-- C9: when the host element has no enclosing cell, openEdit still calls
stopPropagation, and the value emitted on the editing stream is null. -/
theorem CdkEditOpen.openEdit_no_cell_still_stops_propagation
    (hostChain : List DomNode) (editingLog : List (Option DomNode))
    (evt : ClickEvent)
    (hc : closest hostChain matchesCell = none) :
    (CdkEditOpen.openEdit hostChain editingLog evt).event.propagationStopped = true
    ∧ (CdkEditOpen.openEdit hostChain editingLog evt).editingEmitted
        = editingLog ++ [none] := by
  refine ⟨rfl, ?_⟩
  simp [CdkEditOpen.openEdit, hc]

/-- Witness for C9: a host with no cell ancestor. -/
theorem CdkEditOpen.openEdit_no_cell_witness :
    closest [DomNode.other 1, DomNode.row 2] matchesCell = none
    ∧ (CdkEditOpen.openEdit [DomNode.other 1, DomNode.row 2] [] {}).event.propagationStopped
        = true
    ∧ (CdkEditOpen.openEdit [DomNode.other 1, DomNode.row 2] [] {}).editingEmitted
        = [] ++ [none] :=
  ⟨by decide,
    (CdkEditOpen.openEdit_no_cell_still_stops_propagation
        [DomNode.other 1, DomNode.row 2] [] {} (by decide)).1,
    (CdkEditOpen.openEdit_no_cell_still_stops_propagation
        [DomNode.other 1, DomNode.row 2] [] {} (by decide)).2⟩

/-- C4: extending the keyup stream by one event extends the editing stream
by the closest enclosing cell of that event's target exactly when the
event's key is Enter, and by nothing otherwise. -/
theorem CdkEditable.keyup_reaches_editing_iff_enter
    (events : List KeyEvent) (e : KeyEvent) :
    CdkEditable.keyupEditingEmissions (events ++ [e])
      = CdkEditable.keyupEditingEmissions events
        ++ (if e.key == "Enter" then [closest e.target matchesCell] else []) := by
  by_cases h : e.key == "Enter" <;>
    simp [CdkEditable.keyupEditingEmissions, List.filter_append, h]

theorem mem_debounceTime {d : Nat} {l : List TimedEvent} {x : TimedEvent}
    (hx : x ∈ debounceTime d l) :
    ∃ e ∈ l, x = { e with time := e.time + d } := by
  induction l with
  | nil => simp [debounceTime] at hx
  | cons e tail ih =>
    cases tail with
    | nil =>
      simp [debounceTime] at hx
      exact ⟨e, by simp, hx⟩
    | cons e2 rest =>
      rw [debounceTime] at hx
      by_cases h : e.time + d < e2.time
      · rw [if_pos h] at hx
        rcases List.mem_cons.mp hx with h1 | h1
        · exact ⟨e, by simp, h1⟩
        · obtain ⟨q, hq, hxq⟩ := ih h1
          exact ⟨q, List.mem_cons_of_mem _ hq, hxq⟩
      · rw [if_neg h] at hx
        obtain ⟨q, hq, hxq⟩ := ih hx
        exact ⟨q, List.mem_cons_of_mem _ hq, hxq⟩

/-- C5: every value on the mouseMove stream arises from a mousemove event
delayed by exactly DEFAULT_MOUSE_MOVE_DELAY_MS and carries the closest
enclosing row of that event's target; a lone mousemove event is emitted
after exactly that delay; every mouseover event immediately emits the
closest row and every mouseleave event immediately emits null; the debounce
delay is 30 ms. -/
theorem CdkEditable.hover_streams_debounced (events : List TimedEvent)
    (p : Nat × Option DomNode)
    (hp : p ∈ CdkEditable.mouseMoveEmissions events) :
    (∃ e ∈ events, p.1 = e.time + DEFAULT_MOUSE_MOVE_DELAY_MS
        ∧ p.2 = closest e.target matchesRow)
    ∧ (∀ e : TimedEvent, CdkEditable.mouseMoveEmissions [e]
        = [(e.time + DEFAULT_MOUSE_MOVE_DELAY_MS, closest e.target matchesRow)])
    ∧ (∀ e ∈ events,
        (e.time, closest e.target matchesRow) ∈ CdkEditable.mouseoverEmissions events)
    ∧ (∀ e ∈ events,
        (e.time, (none : Option DomNode)) ∈ CdkEditable.mouseleaveEmissions events)
    ∧ DEFAULT_MOUSE_MOVE_DELAY_MS = 30 := by
  refine ⟨?_, ?_, ?_, ?_, rfl⟩
  · obtain ⟨q, hq, hpq⟩ := List.mem_map.mp hp
    obtain ⟨e, he, hqe⟩ := mem_debounceTime hq
    subst hqe
    exact ⟨e, he, by rw [← hpq], by rw [← hpq]⟩
  · intro e
    simp [CdkEditable.mouseMoveEmissions, debounceTime]
  · intro e he
    exact List.mem_map.mpr ⟨e, he, rfl⟩
  · intro e he
    exact List.mem_map.mpr ⟨e, he, rfl⟩

/-- Witness for C5: a single mousemove at t = 0 over row 4 is emitted at
t = 30 carrying row 4. -/
theorem CdkEditable.hover_streams_debounced_witness :
    ((30 : Nat), some (DomNode.row 4))
        ∈ CdkEditable.mouseMoveEmissions [⟨0, [DomNode.row 4]⟩]
    ∧ ∃ e ∈ [(⟨0, [DomNode.row 4]⟩ : TimedEvent)],
        (((30 : Nat), some (DomNode.row 4)).1 = e.time + DEFAULT_MOUSE_MOVE_DELAY_MS
          ∧ ((30 : Nat), some (DomNode.row 4)).2 = closest e.target matchesRow) :=
  ⟨by decide,
    (CdkEditable.hover_streams_debounced [⟨0, [DomNode.row 4]⟩]
      (30, some (DomNode.row 4)) (by decide)).1⟩

/-- Counterexample to C3 as stated: once an overlay exists, an edit event
with the open signal true but a null template falls into the else branch and
performs a detach, so it is not true that no overlay operation is performed
whenever the template is null. -/
theorem CdkPopoverEdit.editStep_detaches_despite_null_template :
    ((CdkPopoverEdit.editStep []
        (CdkPopoverEdit.editStep [] initPopoverEditState
          { isOpen := true, template := some { id := 0 }, activeChain := [] })
        { isOpen := true, template := none, activeChain := [] }).detachCount = 1)
    ∧ ((CdkPopoverEdit.editStep [] initPopoverEditState
        { isOpen := true, template := some { id := 0 }, activeChain := [] }).detachCount = 0)
    ∧ (CdkPopoverEdit.editStep [] initPopoverEditState
        { isOpen := true, template := some { id := 0 }, activeChain := [] }).overlayRef
        = some 0 := by
  decide

/-- C3 (amended): an overlay is created exactly when the open signal is true
with a non-null template and no overlay reference exists yet; it is attached
exactly when the open signal is true with a non-null template; it is
detached exactly when the event is not an open-with-template and an overlay
reference exists (which includes an open with a null template); dispose
happens only in ngOnDestroy, exactly when an overlay reference exists; and
an event that is not an open-with-template while no overlay reference
exists performs no overlay operation at all. -/
theorem CdkPopoverEdit.editStep_guards (cellChain : List DomNode)
    (s : PopoverEditState) (e : EditEvent) :
    ((CdkPopoverEdit.editStep cellChain s e).createCount = s.createCount + 1
        ↔ (opensWithTemplate e = true ∧ s.overlayRef = none))
    ∧ ((CdkPopoverEdit.editStep cellChain s e).attachCount = s.attachCount + 1
        ↔ opensWithTemplate e = true)
    ∧ ((CdkPopoverEdit.editStep cellChain s e).detachCount = s.detachCount + 1
        ↔ (opensWithTemplate e = false ∧ s.overlayRef.isSome = true))
    ∧ (CdkPopoverEdit.editStep cellChain s e).disposeCount = s.disposeCount
    ∧ ((CdkPopoverEdit.ngOnDestroy s).disposeCount = s.disposeCount + 1
        ↔ s.overlayRef.isSome = true)
    ∧ (opensWithTemplate e = false → s.overlayRef = none →
        CdkPopoverEdit.editStep cellChain s e = { s with focused := e.activeChain }) := by
  cases ho : s.overlayRef <;>
    cases hb : e.isOpen && e.template.isSome <;>
      simp [CdkPopoverEdit.editStep, CdkPopoverEdit.ngOnDestroy, opensWithTemplate, ho, hb]

/-- Witness for C3 (amended): a close event with no overlay reference leaves
every overlay counter untouched. -/
theorem CdkPopoverEdit.editStep_guards_witness :
    CdkPopoverEdit.editStep [] initPopoverEditState
        { isOpen := false, template := none, activeChain := [DomNode.row 3] }
      = { initPopoverEditState with focused := [DomNode.row 3] } :=
  (CdkPopoverEdit.editStep_guards [] initPopoverEditState
      { isOpen := false, template := none, activeChain := [DomNode.row 3] }).2.2.2.2.2
    rfl rfl

theorem find?_pane_eq_some_of_mem (chain : List DomNode) (p : DomNode)
    (hp : matchesPane p = true) (hu : chain.countP matchesPane ≤ 1)
    (hmem : p ∈ chain) :
    chain.find? matchesPane = some p := by
  induction chain with
  | nil => simp at hmem
  | cons a rest ih =>
    by_cases ha : matchesPane a = true
    · rw [List.find?_cons_of_pos _ ha]
      rcases List.mem_cons.mp hmem with h | h
      · rw [h]
      · exfalso
        have h1 : 0 < rest.countP matchesPane :=
          List.countP_pos_iff.mpr ⟨p, h, hp⟩
        have h2 : (a :: rest).countP matchesPane = rest.countP matchesPane + 1 := by
          simp [List.countP_cons, ha]
        omega
    · rw [List.find?_cons_of_neg _ ha]
      rcases List.mem_cons.mp hmem with h | h
      · exact absurd (h ▸ hp) ha
      · refine ih ?_ h
        have h2 : (a :: rest).countP matchesPane = rest.countP matchesPane := by
          simp [List.countP_cons, ha]
        omega

/-- C6: on a close edit event delivered while an overlay reference exists,
focus is returned to the cell element exactly when the currently focused
element lies inside this popover's edit pane (edit panes do not nest, so the
focused element's ancestor chain holds at most one pane node); when focus is
anywhere else, the focused element is left unchanged. -/
theorem CdkPopoverEdit.close_returns_focus_iff_inside_pane
    (cellChain : List DomNode) (s : PopoverEditState) (e : EditEvent) (k : Nat)
    (href : s.overlayRef = some k)
    (hclose : opensWithTemplate e = false)
    (hu : e.activeChain.countP matchesPane ≤ 1) :
    (DomNode.pane k ∈ e.activeChain →
        (CdkPopoverEdit.editStep cellChain s e).focused = cellChain)
    ∧ (DomNode.pane k ∉ e.activeChain →
        (CdkPopoverEdit.editStep cellChain s e).focused = e.activeChain) := by
  have hb : (e.isOpen && e.template.isSome) = false := hclose
  have hstep : (CdkPopoverEdit.editStep cellChain s e).focused
      = CdkPopoverEdit.maybeReturnFocusToCell cellChain (DomNode.pane k) e.activeChain := by
    simp [CdkPopoverEdit.editStep, hb, href]
  rw [hstep]
  constructor
  · intro hmem
    rw [CdkPopoverEdit.maybeReturnFocusToCell,
      if_pos (show closest e.activeChain matchesPane = some (DomNode.pane k) from
        find?_pane_eq_some_of_mem e.activeChain (DomNode.pane k) rfl hu hmem)]
  · intro hmem
    rw [CdkPopoverEdit.maybeReturnFocusToCell, if_neg]
    intro hfind
    exact hmem (List.mem_of_find?_eq_some hfind)

/-- Witness for C6: closing while focus is inside this popover's pane
returns focus to the cell. -/
theorem CdkPopoverEdit.close_returns_focus_witness :
    (CdkPopoverEdit.editStep [DomNode.cell 1]
        { initPopoverEditState with overlayRef := some 0 }
        { isOpen := false, template := none,
          activeChain := [DomNode.other 9, DomNode.pane 0] }).focused
      = [DomNode.cell 1] :=
  (CdkPopoverEdit.close_returns_focus_iff_inside_pane [DomNode.cell 1]
      { initPopoverEditState with overlayRef := some 0 }
      { isOpen := false, template := none,
        activeChain := [DomNode.other 9, DomNode.pane 0] } 0
      rfl rfl (by decide)).1 (by decide)

theorem editStep_foldl_preserves_overlay (cellChain : List DomNode) :
    ∀ (events : List EditEvent) (s : PopoverEditState) (v : Nat),
      s.overlayRef = some v →
      (events.foldl (CdkPopoverEdit.editStep cellChain) s).overlayRef = some v
      ∧ (events.foldl (CdkPopoverEdit.editStep cellChain) s).createCount = s.createCount := by
  intro events
  induction events with
  | nil => intro s v h; exact ⟨h, rfl⟩
  | cons e rest ih =>
    intro s v h
    have hstep : (CdkPopoverEdit.editStep cellChain s e).overlayRef = some v
        ∧ (CdkPopoverEdit.editStep cellChain s e).createCount = s.createCount := by
      cases hb : (e.isOpen && e.template.isSome) <;>
        simp [CdkPopoverEdit.editStep, hb, h]
    rw [List.foldl_cons]
    obtain ⟨h1, h2⟩ := hstep
    obtain ⟨h3, h4⟩ := ih _ v h1
    exact ⟨h3, h4.trans h2⟩

theorem editStep_foldl_from_none (cellChain : List DomNode) :
    ∀ (events : List EditEvent) (s : PopoverEditState),
      s.overlayRef = none →
      ((events.foldl (CdkPopoverEdit.editStep cellChain) s).createCount
          = s.createCount + (if events.any opensWithTemplate then 1 else 0))
      ∧ ((events.foldl (CdkPopoverEdit.editStep cellChain) s).overlayRef
          = if events.any opensWithTemplate then some s.createCount else none) := by
  intro events
  induction events with
  | nil => intro s h; simp [h]
  | cons e rest ih =>
    intro s h
    rw [List.foldl_cons]
    cases hb : opensWithTemplate e
    · have hne : (e.isOpen && e.template.isSome) = false := hb
      have hstep : CdkPopoverEdit.editStep cellChain s e
          = { s with focused := e.activeChain } := by
        simp [CdkPopoverEdit.editStep, hne, h]
      obtain ⟨h1, h2⟩ := ih { s with focused := e.activeChain } (by simpa using h)
      rw [hstep]
      constructor
      · rw [h1]; simp [List.any_cons, hb]
      · rw [h2]; simp [List.any_cons, hb]
    · have hpos : (e.isOpen && e.template.isSome) = true := hb
      have hstep : CdkPopoverEdit.editStep cellChain s e
          = { s with overlayRef := some s.createCount,
                     createCount := s.createCount + 1,
                     attached := true, attachCount := s.attachCount + 1,
                     focused := e.activeChain } := by
        simp [CdkPopoverEdit.editStep, hpos, h]
      rw [hstep]
      obtain ⟨h3, h4⟩ := editStep_foldl_preserves_overlay cellChain rest
        { s with overlayRef := some s.createCount,
                 createCount := s.createCount + 1,
                 attached := true, attachCount := s.attachCount + 1,
                 focused := e.activeChain } s.createCount rfl
      constructor
      · rw [h4]; simp [List.any_cons, hb]
      · rw [h3]; simp [List.any_cons, hb]

theorem editStep_foldl_counts (cellChain : List DomNode) :
    ∀ (events : List EditEvent) (s : PopoverEditState),
      ((events.foldl (CdkPopoverEdit.editStep cellChain) s).disposeCount = s.disposeCount)
      ∧ ((events.foldl (CdkPopoverEdit.editStep cellChain) s).attachCount
          = s.attachCount + events.countP opensWithTemplate) := by
  intro events
  induction events with
  | nil => intro s; simp
  | cons e rest ih =>
    intro s
    rw [List.foldl_cons]
    obtain ⟨h3, h4⟩ := ih (CdkPopoverEdit.editStep cellChain s e)
    cases hb : opensWithTemplate e
    · have hne : (e.isOpen && e.template.isSome) = false := hb
      have hstep : (CdkPopoverEdit.editStep cellChain s e).disposeCount = s.disposeCount
          ∧ (CdkPopoverEdit.editStep cellChain s e).attachCount = s.attachCount := by
        cases ho : s.overlayRef <;> simp [CdkPopoverEdit.editStep, hne, ho]
      refine ⟨h3.trans hstep.1, ?_⟩
      rw [h4, hstep.2, List.countP_cons]
      simp [hb]
    · have hpos : (e.isOpen && e.template.isSome) = true := hb
      have hstep : (CdkPopoverEdit.editStep cellChain s e).disposeCount = s.disposeCount
          ∧ (CdkPopoverEdit.editStep cellChain s e).attachCount = s.attachCount + 1 := by
        cases ho : s.overlayRef <;> simp [CdkPopoverEdit.editStep, hpos, ho]
      refine ⟨h3.trans hstep.1, ?_⟩
      rw [h4, hstep.2, List.countP_cons]
      simp [hb]
      omega

/-- C7: across any sequence of edit events, a CdkPopoverEdit instance
creates at most one overlay: the overlay exists exactly after some
open-with-template event, it is the single overlay with ordinal 0, an
attach happens for every open-with-template event (the first one right
after creating, later ones reusing the same overlay), no dispose happens
during edit events, and ngOnDestroy disposes exactly the overlays that were
created (one if any, zero otherwise). -/
theorem CdkPopoverEdit.overlay_created_at_most_once (cellChain : List DomNode)
    (events : List EditEvent) :
    (CdkPopoverEdit.runEditEvents cellChain events).createCount ≤ 1
    ∧ (CdkPopoverEdit.runEditEvents cellChain events).disposeCount = 0
    ∧ ((CdkPopoverEdit.runEditEvents cellChain events).overlayRef
        = if events.any opensWithTemplate then some 0 else none)
    ∧ ((CdkPopoverEdit.runEditEvents cellChain events).createCount = 1
        ↔ ∃ e ∈ events, opensWithTemplate e = true)
    ∧ (CdkPopoverEdit.runEditEvents cellChain events).attachCount
        = events.countP opensWithTemplate
    ∧ (CdkPopoverEdit.ngOnDestroy
          (CdkPopoverEdit.runEditEvents cellChain events)).disposeCount
        = (CdkPopoverEdit.runEditEvents cellChain events).createCount := by
  obtain ⟨hc, ho⟩ := editStep_foldl_from_none cellChain events initPopoverEditState rfl
  obtain ⟨hd, ha⟩ := editStep_foldl_counts cellChain events initPopoverEditState
  have hrun : CdkPopoverEdit.runEditEvents cellChain events
      = events.foldl (CdkPopoverEdit.editStep cellChain) initPopoverEditState := rfl
  rw [hrun]
  refine ⟨?_, hd.trans rfl, ho.trans (by rfl), ?_,
    by rw [ha]; simp [initPopoverEditState], ?_⟩
  · rw [hc]
    cases hany : events.any opensWithTemplate <;> simp [hany, initPopoverEditState]
  · rw [hc]
    have h0 : initPopoverEditState.createCount = 0 := rfl
    rw [h0, ← List.any_eq_true]
    cases hany : events.any opensWithTemplate <;> simp [hany]
  · cases hany : events.any opensWithTemplate
    · rw [hany] at hc ho
      simp only [Bool.false_eq_true, if_false] at hc ho
      simp only [CdkPopoverEdit.ngOnDestroy, ho]
      rw [hd, hc]
      rfl
    · rw [hany] at hc ho
      simp only [if_true] at hc ho
      simp only [CdkPopoverEdit.ngOnDestroy, ho]
      rw [hd, hc]
      rfl

theorem hoverStep_foldl_preserves_view :
    ∀ (events : List Bool) (s : RowHoverContentState) (v : Nat),
      s.viewRef = some v →
      (events.foldl CdkRowHoverContent.hoverStep s).viewRef = some v
      ∧ (events.foldl CdkRowHoverContent.hoverStep s).createViewCount
          = s.createViewCount := by
  intro events
  induction events with
  | nil => intro s v h; exact ⟨h, rfl⟩
  | cons b rest ih =>
    intro s v h
    have hstep : (CdkRowHoverContent.hoverStep s b).viewRef = some v
        ∧ (CdkRowHoverContent.hoverStep s b).createViewCount = s.createViewCount := by
      cases b <;> simp [CdkRowHoverContent.hoverStep, h]
    rw [List.foldl_cons]
    obtain ⟨h1, h2⟩ := hstep
    obtain ⟨h3, h4⟩ := ih _ v h1
    exact ⟨h3, h4.trans h2⟩

theorem hoverStep_foldl_from_none :
    ∀ (events : List Bool) (s : RowHoverContentState),
      s.viewRef = none →
      ((events.foldl CdkRowHoverContent.hoverStep s).createViewCount
          = s.createViewCount + (if events.any (fun b => b) then 1 else 0))
      ∧ ((events.foldl CdkRowHoverContent.hoverStep s).viewRef
          = if events.any (fun b => b) then some s.createViewCount else none) := by
  intro events
  induction events with
  | nil => intro s h; simp [h]
  | cons b rest ih =>
    intro s h
    rw [List.foldl_cons]
    cases b
    · have hstep : CdkRowHoverContent.hoverStep s false = s := by
        simp [CdkRowHoverContent.hoverStep, h]
      rw [hstep]
      obtain ⟨h1, h2⟩ := ih s h
      constructor
      · rw [h1]; simp [List.any_cons]
      · rw [h2]; simp [List.any_cons]
    · have hstep : CdkRowHoverContent.hoverStep s true
          = { s with viewRef := some s.createViewCount,
                     createViewCount := s.createViewCount + 1, inserted := true } := by
        simp [CdkRowHoverContent.hoverStep, h]
      rw [hstep]
      obtain ⟨h3, h4⟩ := hoverStep_foldl_preserves_view rest
        { s with viewRef := some s.createViewCount,
                 createViewCount := s.createViewCount + 1, inserted := true }
        s.createViewCount rfl
      constructor
      · rw [h4]; simp [List.any_cons]
      · rw [h3]; simp [List.any_cons]

theorem hoverStep_foldl_counts :
    ∀ (events : List Bool) (s : RowHoverContentState),
      ((events.foldl CdkRowHoverContent.hoverStep s).destroyCount = s.destroyCount)
      ∧ ((events.foldl CdkRowHoverContent.hoverStep s).insertCount
            + (events.foldl CdkRowHoverContent.hoverStep s).createViewCount
          = s.insertCount + s.createViewCount + events.countP (fun b => b)) := by
  intro events
  induction events with
  | nil => intro s; simp
  | cons b rest ih =>
    intro s
    rw [List.foldl_cons]
    obtain ⟨h3, h4⟩ := ih (CdkRowHoverContent.hoverStep s b)
    have hstep : (CdkRowHoverContent.hoverStep s b).destroyCount = s.destroyCount
        ∧ (CdkRowHoverContent.hoverStep s b).insertCount
            + (CdkRowHoverContent.hoverStep s b).createViewCount
          = s.insertCount + s.createViewCount + (if b then 1 else 0) := by
      cases b <;> cases ho : s.viewRef <;>
        simp [CdkRowHoverContent.hoverStep, ho] <;> omega
    refine ⟨h3.trans hstep.1, ?_⟩
    rw [h4, hstep.2, List.countP_cons]
    cases b
    · simp
    · simp
      omega

/-- C10: across any sequence of hover signals, a CdkRowHoverContent instance
creates at most one embedded view: the view exists exactly after some
hover-on, it is the single view with ordinal 0 (so later hover-ons re-insert
that same retained reference), hover-ons after the first insert rather than
create, the view is never destroyed during hover events, hover-off detaches
exactly when a view exists and never destroys, and ngOnDestroy destroys
exactly the views that were created (one if any, zero otherwise). -/
theorem CdkRowHoverContent.view_created_at_most_once (events : List Bool) :
    (CdkRowHoverContent.runHoverEvents events).createViewCount ≤ 1
    ∧ (CdkRowHoverContent.runHoverEvents events).destroyCount = 0
    ∧ ((CdkRowHoverContent.runHoverEvents events).viewRef
        = if events.any (fun b => b) then some 0 else none)
    ∧ ((CdkRowHoverContent.runHoverEvents events).createViewCount = 1 ↔ true ∈ events)
    ∧ (CdkRowHoverContent.runHoverEvents events).insertCount
          + (CdkRowHoverContent.runHoverEvents events).createViewCount
        = events.countP (fun b => b)
    ∧ (CdkRowHoverContent.ngOnDestroy
          (CdkRowHoverContent.runHoverEvents events)).destroyCount
        = (CdkRowHoverContent.runHoverEvents events).createViewCount
    ∧ ∀ t : RowHoverContentState,
        ((CdkRowHoverContent.hoverStep t false).detachCount = t.detachCount + 1
          ↔ t.viewRef.isSome = true)
        ∧ (CdkRowHoverContent.hoverStep t false).destroyCount = t.destroyCount
        ∧ (CdkRowHoverContent.hoverStep t false).viewRef = t.viewRef := by
  obtain ⟨hc, ho⟩ := hoverStep_foldl_from_none events initRowHoverContentState rfl
  obtain ⟨hd, hi⟩ := hoverStep_foldl_counts events initRowHoverContentState
  have hrun : CdkRowHoverContent.runHoverEvents events
      = events.foldl CdkRowHoverContent.hoverStep initRowHoverContentState := rfl
  have hmem : (events.any (fun b => b) = true) ↔ true ∈ events := by
    rw [List.any_eq_true]
    constructor
    · rintro ⟨x, hx, hxt⟩
      have : x = true := hxt
      rwa [← this]
    · intro hmm
      exact ⟨true, hmm, rfl⟩
  rw [hrun]
  refine ⟨?_, hd.trans rfl, ho.trans (by rfl), ?_,
    by rw [hi]; simp [initRowHoverContentState], ?_, ?_⟩
  · rw [hc]
    cases hany : events.any (fun b => b) <;> simp [hany, initRowHoverContentState]
  · rw [hc]
    have h0 : initRowHoverContentState.createViewCount = 0 := rfl
    rw [h0, ← hmem]
    cases hany : events.any (fun b => b) <;> simp [hany]
  · cases hany : events.any (fun b => b)
    · rw [hany] at hc ho
      simp only [Bool.false_eq_true, if_false] at hc ho
      simp only [CdkRowHoverContent.ngOnDestroy, ho]
      rw [hd, hc]
      rfl
    · rw [hany] at hc ho
      simp only [if_true] at hc ho
      simp only [CdkRowHoverContent.ngOnDestroy, ho]
      rw [hd, hc]
      rfl
  · intro t
    cases ho2 : t.viewRef <;> simp [CdkRowHoverContent.hoverStep, ho2]
